import Mathlib

/-!
Shallow embedding, in Lean 4, of the protocol machinery of the
appium-ios-remotexpc library, together with proofs about the embedded
functions.  Buffers are modelled as `List Nat` of byte values, JS strings as
`List Nat` of UTF-16 code units, and fallible code returns `Except String`.
Each definition names the TypeScript function it translates.
-/

set_option maxRecDepth 40000

namespace Usbmux

/-- Translated from `byteSwap16` in `src/lib/Plist/usbmux-request.ts`:
`return ((value & 0xff) << 8) | ((value >> 8) & 0xff);`.
On the 16-bit domain the JS 32-bit coercions are the identity, so the
operations are modelled directly on `Nat`. -/
def byteSwap16 (value : Nat) : Nat :=
  ((value &&& 0xff) <<< 8) ||| ((value >>> 8) &&& 0xff)

end Usbmux

namespace PlistComm

/-- Translated from `PlistService.receivePlist` in
`src/lib/plist/plist-service.ts`.  The service keeps a `_messageQueue` that the
decoder pushes complete messages onto; `receivePlist` shifts the queue,
polling every 50 ms until the timeout fires.  Real time is abstracted away:
`queue` is the message queue as of the deadline (so `[]` means no complete
message became available during the wait).  The result pairs the outcome with
the queue that remains for later calls; on timeout nothing is consumed and the
promise is rejected with
`new Error("Timed out waiting for plist response after " + timeout + "ms")`. -/
def receivePlist {α : Type} (queue : List α) (timeout : Nat) :
    Except String α × List α :=
  match queue with
  | [] =>
    (Except.error
      ("Timed out waiting for plist response after " ++ toString timeout ++ "ms"),
      [])
  | m :: rest => (Except.ok m, rest)

end PlistComm

namespace TunnelReg

/-- Field-for-field translation of the `TunnelRegistryEntry` interface in
`src/lib/tunnel/tunnel-registry-server.ts`; timestamps are millisecond
counts. -/
structure TunnelRegistryEntry where
  udid : String
  deviceId : Int
  address : String
  rsdPort : Nat
  packetStreamPort : Option Nat
  connectionType : String
  productId : Int
  createdAt : Nat
  lastUpdated : Nat
deriving DecidableEq, Repr

/-- The `metadata` field of the `TunnelRegistry` interface. -/
structure Metadata where
  lastUpdated : String
  totalTunnels : Nat
  activeTunnels : Nat
deriving DecidableEq, Repr

/-- The `TunnelRegistry` interface: `tunnels` is a
`Record<string, TunnelRegistryEntry>`, modelled as an insertion-ordered
association list (JS objects keep one value per key). -/
structure TunnelRegistry where
  tunnels : List (String × TunnelRegistryEntry)
  metadata : Metadata
deriving DecidableEq, Repr

/-- JS object property assignment `obj[k] = v` on an association list: an
existing key is overwritten in place, a fresh key is appended. -/
def assocSet {κ α : Type} [BEq κ] : List (κ × α) → κ → α → List (κ × α)
  | [], k, v => [(k, v)]
  | (k0, v0) :: rest, k, v =>
    if k0 == k then (k, v) :: rest else (k0, v0) :: assocSet rest k v

/-- JS object property read `obj[k]` on an association list. -/
def assocGet {κ α : Type} [BEq κ] (m : List (κ × α)) (k : κ) : Option α :=
  (m.find? (fun p => p.1 == k)).map (fun p => p.2)

/-- Translated from `TunnelRegistryServer.updateMetadata`: the tunnel count is
`Object.keys(this.registry.tunnels).length` (the association list length, its
keys being distinct), and both `totalTunnels` and `activeTunnels` are set to
it; `lastUpdated` is `new Date().toISOString()`, passed in as `nowIso`. -/
def updateMetadata (tunnels : List (String × TunnelRegistryEntry))
    (nowIso : String) : Metadata :=
  { lastUpdated := nowIso
    totalTunnels := tunnels.length
    activeTunnels := tunnels.length }

/-- Response produced by the PUT handler: HTTP status, the JSON `tunnel` field
on success, the JSON `error` field on failure. -/
structure PutResponse where
  status : Nat
  tunnel : Option TunnelRegistryEntry
  error : Option String
deriving DecidableEq, Repr

/-- Translated from `TunnelRegistryServer.updateTunnel`, the handler of
`PUT /remotexpc/tunnels/:udid`.  `body` is the JSON-parsed request body:
`none` covers both malformed JSON (rejected with 400 by the `express.json()`
middleware) and a missing/non-object body (the handler's own
`!tunnelData || typeof tunnelData !== "object"` check).  `now` stands for
`Date.now()` and `nowIso` for `new Date().toISOString()`. -/
def updateTunnel (registry : TunnelRegistry) (pathUdid : String)
    (body : Option TunnelRegistryEntry) (now : Nat) (nowIso : String) :
    PutResponse × TunnelRegistry :=
  match body with
  | none =>
    ({ status := 400, tunnel := none, error := some "Invalid tunnel data" },
      registry)
  | some tunnelData =>
    if tunnelData.udid ≠ pathUdid then
      ({ status := 400, tunnel := none,
         error := some "UDID mismatch between path and body" }, registry)
    else
      let entry := { tunnelData with lastUpdated := now }
      let tunnels1 := assocSet registry.tunnels pathUdid entry
      let registry1 : TunnelRegistry :=
        { tunnels := tunnels1, metadata := updateMetadata tunnels1 nowIso }
      ({ status := 200, tunnel := some entry, error := none }, registry1)

end TunnelReg

namespace RemoteXpc

/-- One token produced by the scan of the RSD catalog text in
`extractServices` (`src/lib/remote-xpc/remote-xpc-connection.ts`): the regex
`com\.apple(?:\.[\w-]+)+|Port[^0-9]*(\d+)` alternately matches service names
and port numbers; the payload is represented by its matched token sequence. -/
inductive RsdItem where
  | service (value : String)
  | port (value : String)
deriving DecidableEq, Repr

/-- A `Service` record as in `remote-xpc-connection.ts`. -/
structure Service where
  serviceName : String
  port : String
deriving DecidableEq, Repr

/-- The look-ahead `for (let j = i + 1; ...)` of `extractServices`: the first
port token at or after the given position, skipping service tokens. -/
def findPortAfter : List RsdItem → Option String
  | [] => none
  | RsdItem.service _ :: rest => findPortAfter rest
  | RsdItem.port p :: _ => some p

/-- The item loop of `extractServices`: a service token immediately followed
by another service token is skipped; otherwise a `Service` is emitted whose
port is the next port token (empty string when none is found). -/
def extractLoop : List RsdItem → List Service
  | [] => []
  | RsdItem.port _ :: rest => extractLoop rest
  | RsdItem.service _ :: RsdItem.service b :: rest =>
    extractLoop (RsdItem.service b :: rest)
  | RsdItem.service name :: RsdItem.port p :: rest =>
    { serviceName := name,
      port := (findPortAfter (RsdItem.port p :: rest)).getD "" }
      :: extractLoop (RsdItem.port p :: rest)
  | [RsdItem.service name] => [{ serviceName := name, port := "" }]

/-- Translated from `extractServices`: the token sequence is folded into the
`services` array returned to `listAllServices`. -/
def extractServices (items : List RsdItem) : List Service :=
  extractLoop items

/-- Translated from `RemoteXpcConnection.findService`: `services.find(...)`;
the not-found case (`throw`) is modelled as `none`. -/
def findService (services : List Service) (serviceName : String) :
    Option Service :=
  services.find? (fun s => s.serviceName == serviceName)

end RemoteXpc

namespace Syslog

/-- Printable-ASCII test on one UTF-16 code unit, as in
`src/services/ios/syslog-service/index.ts` (`ASCII_PRINTABLE_MIN = 32`,
`ASCII_PRINTABLE_MAX = 126`). -/
def isPrintableCode (c : Nat) : Bool :=
  32 ≤ c && c ≤ 126

/-- The code-unit set matched by JavaScript's whitespace trimming
(`String.prototype.trim`). -/
def jsWhitespace (c : Nat) : Bool :=
  c ∈ [9, 10, 11, 12, 13, 32, 160, 5760, 8192, 8193, 8194, 8195, 8196, 8197,
    8198, 8199, 8200, 8201, 8202, 8232, 8233, 8239, 8287, 12288, 65279]

/-- JavaScript `s.trim()`: strip leading and trailing whitespace. -/
def jsTrim (s : List Nat) : List Nat :=
  ((s.dropWhile jsWhitespace).reverse.dropWhile jsWhitespace).reverse

/-- Translated from `SyslogService.isMostlyPrintable`.  The packet payload is
represented by the UTF-16 code units of `buffer.toString("utf8")` (identity on
ASCII payloads).  The source counts printable characters with an early exit at
`printableCount > totalLength * 0.5` and otherwise returns
`printableCount / totalLength > 0.5`; both tests are `2 * count > length`. -/
def isMostlyPrintable (s : List Nat) : Bool :=
  if s.length = 0 then false
  else 2 * s.countP isPrintableCode > s.length

/-- Translated from `SyslogService.extractPrintableText`:
`buffer.toString().replace(/[^\x20-\x7E]/g, "")`, i.e. keep exactly the
printable code units. -/
def extractPrintableText (s : List Nat) : List Nat :=
  s.filter isPrintableCode

/-- Translated from `SyslogService.processAsText`.  The returned list holds
the payloads of the `message` events emitted for the packet (logging calls
have no observable effect).  Both the mostly-printable branch and the
not-mostly-printable branch extract the printable text and emit it when
`message.trim()` is truthy, i.e. nonempty. -/
def processAsText (payload : List Nat) : List (List Nat) :=
  if isMostlyPrintable payload then
    let message := extractPrintableText payload
    if (jsTrim message).isEmpty then [] else [message]
  else
    let message := extractPrintableText payload
    if (jsTrim message).isEmpty then [] else [message]

end Syslog

namespace Splitter

/-- Big-endian 32-bit read `buffer.readUInt32BE(off)`; reads past the end see
byte 0 (the claims only use in-bounds reads). -/
def readUInt32BE (buf : List Nat) (off : Nat) : Nat :=
  buf.getD off 0 * 16777216 + buf.getD (off + 1) 0 * 65536 +
    buf.getD (off + 2) 0 * 256 + buf.getD (off + 3) 0

/-- Little-endian 32-bit read `buffer.readUInt32LE(off)`. -/
def readUInt32LE (buf : List Nat) (off : Nat) : Nat :=
  buf.getD (off + 3) 0 * 16777216 + buf.getD (off + 2) 0 * 65536 +
    buf.getD (off + 1) 0 * 256 + buf.getD off 0

/-- Byte sequence of the ASCII marker `<?xml`. -/
def xmlDeclBytes : List Nat := [60, 63, 120, 109, 108]

/-- Byte sequence of the ASCII marker `<plist`. -/
def plistTagBytes : List Nat := [60, 112, 108, 105, 115, 116]

/-- The marker test `s.includes("<?xml") || s.includes("<plist")` applied to a
decoded buffer slice.  Both markers are pure ASCII, and ASCII bytes never
occur inside multi-byte UTF-8 sequences, so the test on the UTF-8 decoded
string is byte-substring search. -/
def hasXmlMarker (l : List Nat) : Bool :=
  decide (xmlDeclBytes <:+: l) || decide (plistTagBytes <:+: l)

/-- Outcome of the length-plausibility analysis at the head of the buffer in
`LengthBasedSplitter.processBinaryData`. -/
inductive LengthStep where
  | accept (len : Nat)
  | toXml
  | dropOne
deriving DecidableEq, Repr

/-- The length-checking prelude of one `processBinaryData` loop iteration
(`src/lib/plist/length-based-splitter.ts`, 4-byte length field at offset 0,
zero length adjustment, so the `messageLength < 0` disjunct cannot fire):
an implausible primary read is retried in the opposite endianness; if the
alternate is implausible too (`alternateLength > 0 && alternateLength <=
maxFrameLength` fails) the first `min(100, length)` buffered bytes are
searched for an XML marker, switching to XML mode on a hit and otherwise
dropping one byte. -/
def lengthStep (littleEndian : Bool) (maxFrameLength : Nat) (buf : List Nat) :
    LengthStep :=
  let messageLength :=
    if littleEndian then readUInt32LE buf 0 else readUInt32BE buf 0
  if messageLength > maxFrameLength then
    let alternateLength :=
      if littleEndian then readUInt32BE buf 0 else readUInt32LE buf 0
    if 0 < alternateLength ∧ alternateLength ≤ maxFrameLength then
      LengthStep.accept alternateLength
    else if hasXmlMarker (buf.take 100) then LengthStep.toXml
    else LengthStep.dropOne
  else LengthStep.accept messageLength

/-- The `while` loop of `LengthBasedSplitter.processBinaryData`, fuel-indexed
so that it evaluates by reduction (each iteration consumes at least one
buffered byte, so `buf.length + 1` fuel always suffices).  The result is the
list of pushed messages, the remaining buffer, and whether XML mode was
entered.  An accepted frame of declared length `len` spans
`totalLength = 4 + len` bytes; a shorter buffer makes the loop wait for more
data; an extracted frame whose first `min(100, ...)` bytes contain an XML
marker switches to XML mode without consuming anything (the `try/catch`
around the extraction cannot fire: slicing never throws). -/
def processBinaryLoop (littleEndian : Bool) (maxFrameLength : Nat) :
    Nat → List Nat → List (List Nat) × List Nat × Bool
  | 0, buf => ([], buf, false)
  | fuel + 1, buf =>
    if buf.length < 4 then ([], buf, false)
    else
      match lengthStep littleEndian maxFrameLength buf with
      | LengthStep.toXml => ([], buf, true)
      | LengthStep.dropOne =>
        processBinaryLoop littleEndian maxFrameLength fuel (buf.drop 1)
      | LengthStep.accept len =>
        if buf.length < 4 + len then ([], buf, false)
        else
          let message := buf.take (4 + len)
          if hasXmlMarker (message.take 100) then ([], buf, true)
          else
            let r :=
              processBinaryLoop littleEndian maxFrameLength fuel
                (buf.drop (4 + len))
            (message :: r.1, r.2.1, r.2.2)

/-- One full `processBinaryData` run over the buffered bytes. -/
def processBinaryData (littleEndian : Bool) (maxFrameLength : Nat)
    (buf : List Nat) : List (List Nat) × List Nat × Bool :=
  processBinaryLoop littleEndian maxFrameLength (buf.length + 1) buf

/-- Concrete buffer for the XML-marker analysis: 100 bytes of 0xFF followed
by `<?xml`.  Both endianness reads of the length field give 0xFFFFFFFF, and
the only XML marker starts at offset 100, just past the preview window. -/
def previewCexBuf : List Nat :=
  List.replicate 100 255 ++ xmlDeclBytes

end Splitter

namespace BPlist

/-- Plist values as produced and consumed by the library
(`PlistValue` in `src/lib/types.ts`).  JS numbers are split into the integer
case (`int`, arbitrary-precision in the model; the TS code works with doubles)
and the non-integer case (`real`, carried as the raw big-endian IEEE-754
bytes, whose numeric reading is not modelled).  A `Date` is likewise carried
as the 8 raw bytes of its encoded Apple-epoch timestamp.  Strings are lists of
UTF-16 code units and dictionaries are insertion-ordered string-keyed
association lists. -/
inductive PValue where
  | null
  | bool (b : Bool)
  | int (n : Int)
  | real (bits : List Nat)
  | date (bits : List Nat)
  | data (bytes : List Nat)
  | string (units : List Nat)
  | array (items : List PValue)
  | dict (entries : List (List Nat × PValue))

/-- The `bplist00` magic, `Buffer.from("bplist00")`. -/
def magic : List Nat := [0x62, 0x70, 0x6C, 0x69, 0x73, 0x74, 0x30, 0x30]

/-- Big-endian byte composition: the accumulator loop
`result = (result << 8) | buffer.readUInt8(...)` used by `readOffset`,
`readObjectRef` and `readBigUInt64BE` (the JS 32-bit coercion of `<<`/`|` is
the identity for the value ranges exercised here). -/
def beNat (bytes : List Nat) : Nat :=
  bytes.foldl (fun acc b => acc * 256 + b) 0

/-- Big-endian encoding of `value` on exactly `size` bytes
(`writeUIntBE`-style writers truncate to the low `8 * size` bits). -/
def natToBEBytes : Nat → Nat → List Nat
  | 0, _ => []
  | size + 1, value => natToBEBytes size (value / 256) ++ [value % 256]

/-- Big-endian two's-complement encoding of a signed integer on `size` bytes
(`writeIntBE` / `writeBigInt64BE`; the source throws a `RangeError` on values
outside the signed range, which the claims never exercise). -/
def intToBEBytes (size : Nat) (n : Int) : List Nat :=
  natToBEBytes size (n.emod (2 ^ (8 * size))).toNat

/-- Translated from `calculateMinByteSize` in
`src/lib/Plist/binary-plist-creator.ts`. -/
def calculateMinByteSize (value : Nat) : Nat :=
  if value < 256 then 1
  else if value < 65536 then 2
  else if value < 4294967296 then 4
  else 8

/-- One slot of the creator's object table.  `collectObjects` deduplicates
table entries through a JS `Map`: primitives (null, booleans, numbers,
strings) by value, objects (`Buffer`, `Date`, arrays, dictionaries) by
reference — in a value tree every composite occurrence is a fresh object, so
composites always get fresh slots.  For composites the slot also records the
object IDs `createObjectData` later obtains from `objectRefMap.get` for each
child. -/
inductive BEntry where
  | prim (v : PValue)
  | dataE (bytes : List Nat)
  | dateE (bits : List Nat)
  | arr (refs : List Nat)
  | dictE (krefs vrefs : List Nat)

/-- Structural equality on primitive plist values (the JS `Map` key equality
for null, booleans, numbers and strings); composites compare by reference in
JS and never reach this comparison. -/
def primEq : PValue → PValue → Bool
  | PValue.null, PValue.null => true
  | PValue.bool a, PValue.bool b => a == b
  | PValue.int a, PValue.int b => a == b
  | PValue.real a, PValue.real b => a == b
  | PValue.string a, PValue.string b => a == b
  | _, _ => false

/-- First table slot holding the given primitive value, i.e. the ID the JS
`Map` handed out when the primitive was first collected. -/
def primIndex (table : List BEntry) (v : PValue) : Option Nat :=
  table.findIdx?
    (fun e => match e with
      | BEntry.prim p => primEq p v
      | _ => false)

/-- Collection of one primitive value, as in `collectObjects`: an already
collected equal primitive is reused, otherwise a fresh slot is appended. -/
def collectPrim (v : PValue) (table : List BEntry) : Nat × List BEntry :=
  match primIndex table v with
  | some i => (i, table)
  | none => (table.length, table ++ [BEntry.prim v])

mutual

/-- Translated from `collectObjects` in `binary-plist-creator.ts`: walk the
value, assign object-table IDs in preorder (a composite reserves its slot
before its children are collected) and return the ID assigned to the value.
The fuel argument only makes the nested recursion structural; any fuel above
the value's size is enough. -/
def collectF : Nat → PValue → List BEntry → Nat × List BEntry
  | 0, _, table => (0, table)
  | fuel + 1, v, table =>
    match v with
    | PValue.array items =>
      let id := table.length
      let sub := collectListF fuel items (table ++ [BEntry.arr []])
      (id, sub.2.set id (BEntry.arr sub.1))
    | PValue.dict entries =>
      let id := table.length
      let sub := collectDictF fuel entries (table ++ [BEntry.dictE [] []])
      (id, sub.2.2.set id (BEntry.dictE sub.1 sub.2.1))
    | PValue.data bytes => (table.length, table ++ [BEntry.dataE bytes])
    | PValue.date bits => (table.length, table ++ [BEntry.dateE bits])
    | prim => collectPrim prim table

/-- Collection of the items of an array, left to right, returning their
object IDs. -/
def collectListF : Nat → List PValue → List BEntry → List Nat × List BEntry
  | 0, _, table => ([], table)
  | _, [], table => ([], table)
  | fuel + 1, v :: rest, table =>
    let r := collectF fuel v table
    let rs := collectListF (fuel + 1) rest r.2
    (r.1 :: rs.1, rs.2)

/-- Collection of the entries of a dictionary: for each entry the key string
is collected, then the value (`for (const key of Object.keys(value))`).
Returns the key IDs and the value IDs. -/
def collectDictF : Nat → List (List Nat × PValue) → List BEntry →
    List Nat × List Nat × List BEntry
  | 0, _, table => ([], [], table)
  | _, [], table => ([], [], table)
  | fuel + 1, (k, v) :: rest, table =>
    let kr := collectPrim (PValue.string k) table
    let vr := collectF fuel v kr.2
    let rs := collectDictF (fuel + 1) rest vr.2
    (kr.1 :: rs.1, vr.1 :: rs.2.1, rs.2.2)

end

mutual

/-- Depth of a plist value tree, an upper bound for the collection fuel. -/
def pdepth : PValue → Nat
  | PValue.array items => pdepthList items + 1
  | PValue.dict entries => pdepthDict entries + 1
  | _ => 1

/-- Depth helper over array items. -/
def pdepthList : List PValue → Nat
  | [] => 0
  | v :: rest => max (pdepth v) (pdepthList rest)

/-- Depth helper over dictionary entries. -/
def pdepthDict : List (List Nat × PValue) → Nat
  | [] => 0
  | (_, v) :: rest => max (pdepth v) (pdepthDict rest)

end

/-- The creator's object-collection pass with enough fuel. -/
def collect (v : PValue) : List BEntry :=
  (collectF (pdepth v) v []).2

/-- Translated from `createIntHeader` in `binary-plist-creator.ts`. -/
def createIntHeader (value : Nat) : List Nat :=
  if value < 256 then [0x10, value]
  else if value < 65536 then [0x11] ++ natToBEBytes 2 value
  else [0x12] ++ natToBEBytes 4 value

/-- The integer branch of `createObjectData`.  Note the first branch stores
0..255 as an unsigned byte (`writeUInt8`) under the one-byte marker, and the
later branches store two's-complement signed values. -/
def intData (n : Int) : List Nat :=
  if 0 ≤ n ∧ n ≤ 255 then [0x10, n.toNat]
  else if -128 ≤ n ∧ n ≤ 127 then [0x10] ++ intToBEBytes 1 n
  else if -32768 ≤ n ∧ n ≤ 32767 then [0x11] ++ intToBEBytes 2 n
  else if -2147483648 ≤ n ∧ n ≤ 2147483647 then [0x12] ++ intToBEBytes 4 n
  else [0x13] ++ intToBEBytes 8 n

/-- UTF-16LE bytes of a string, `Buffer.from(value, "utf16le")`: each code
unit contributes its low byte then its high byte. -/
def utf16leBytes (units : List Nat) : List Nat :=
  (units.map (fun u => [u % 256, u / 256 % 256])).flatten

/-- The string branch of `createObjectData`: the regex `^[\x00-\x7F]*$`
decides between `ascii` (one byte per code unit) and `utf16le` encoding; the
header length count is `value.length`, the number of code units, in both
branches. -/
def stringData (units : List Nat) : List Nat :=
  let isAscii := units.all (fun u => u ≤ 0x7F)
  let stringBuffer := if isAscii then units else utf16leBytes units
  let length := units.length
  let header :=
    if length < 15 then [(if isAscii then 0x50 else 0x60) ||| length]
    else [(if isAscii then 0x50 else 0x60) ||| 0x0F] ++ createIntHeader length
  header ++ stringBuffer

/-- The `Buffer` branch of `createObjectData`. -/
def dataData (bytes : List Nat) : List Nat :=
  let length := bytes.length
  let header :=
    if length < 15 then [0x40 ||| length]
    else [0x40 ||| 0x0F] ++ createIntHeader length
  header ++ bytes

/-- Reference block of an array or dictionary: each child ID written on
`objectRefSize` bytes, big-endian (`writeOffsetToBuffer`). -/
def refBytes (objectRefSize : Nat) (refs : List Nat) : List Nat :=
  (refs.map (natToBEBytes objectRefSize)).flatten

/-- The array branch of `createObjectData`. -/
def arrayData (refs : List Nat) (objectRefSize : Nat) : List Nat :=
  let length := refs.length
  let header :=
    if length < 15 then [0xA0 ||| length]
    else [0xA0 ||| 0x0F] ++ createIntHeader length
  header ++ refBytes objectRefSize refs

/-- The dictionary branch of `createObjectData`: header, key references,
value references. -/
def dictData (krefs vrefs : List Nat) (objectRefSize : Nat) : List Nat :=
  let length := krefs.length
  let header :=
    if length < 15 then [0xD0 ||| length]
    else [0xD0 ||| 0x0F] ++ createIntHeader length
  header ++ refBytes objectRefSize krefs ++ refBytes objectRefSize vrefs

/-- Translated from `createObjectData` in `binary-plist-creator.ts`, applied
to a collected table slot.  A `real` number is written as `0x23` followed by
its 8 IEEE-754 bytes (`writeDoubleBE`), a `Date` as `0x33` followed by its
encoded timestamp bytes.  The catch-all branch is the source's final
`return Buffer.from([BPLIST_TYPE.NULL])` fallback, unreachable for collected
slots. -/
def createObjectData (entry : BEntry) (objectRefSize : Nat) : List Nat :=
  match entry with
  | BEntry.prim PValue.null => [0x00]
  | BEntry.prim (PValue.bool false) => [0x08]
  | BEntry.prim (PValue.bool true) => [0x09]
  | BEntry.prim (PValue.int n) => intData n
  | BEntry.prim (PValue.real bits) => [0x23] ++ bits
  | BEntry.prim (PValue.string units) => stringData units
  | BEntry.prim _ => [0x00]
  | BEntry.dateE bits => [0x33] ++ bits
  | BEntry.dataE bytes => dataData bytes
  | BEntry.arr refs => arrayData refs objectRefSize
  | BEntry.dictE krefs vrefs => dictData krefs vrefs objectRefSize

/-- Translated from `createBinaryPlist` in
`src/lib/Plist/binary-plist-creator.ts`.  Each object offset recorded in the
offset table is `calculateObjectDataLength(objectData)` at the time the
object's data is created — a position relative to the start of the object
data section, not counting the 8 magic bytes — while the trailer's offset
table offset does add `BPLIST_MAGIC_AND_VERSION.length`. -/
def createBinaryPlist (obj : PValue) : List Nat :=
  let table := collect obj
  let numObjects := table.length
  let objectRefSize := calculateMinByteSize (numObjects - 1)
  let objectData := table.map (fun e => createObjectData e objectRefSize)
  let objectOffsets :=
    (List.range numObjects).map
      (fun i => (((objectData.take i).map List.length).sum))
  let maxOffset := (objectData.map List.length).sum
  let offsetSize := calculateMinByteSize maxOffset
  let offsetTable := (objectOffsets.map (natToBEBytes offsetSize)).flatten
  let offsetTableOffset := 8 + maxOffset
  let trailer :=
    [0, 0, 0, 0, 0, 0, offsetSize, objectRefSize] ++
      natToBEBytes 8 numObjects ++ natToBEBytes 8 0 ++
      natToBEBytes 8 offsetTableOffset
  magic ++ objectData.flatten ++ offsetTable ++ trailer

/-- Bounds-checked byte read, `buffer.readUInt8(off)`; Node throws a
`RangeError` past the end. -/
def readUInt8 (buf : List Nat) (off : Nat) : Except String Nat :=
  match buf.get? off with
  | some b => Except.ok b
  | none => Except.error "Attempt to access memory outside buffer bounds"

/-- Bounds-checked slice of `count` bytes at `off`, the reading window of the
fixed-width `read*BE` helpers. -/
def readBytes (buf : List Nat) (off count : Nat) : Except String (List Nat) :=
  if off + count ≤ buf.length then Except.ok ((buf.drop off).take count)
  else Except.error "Attempt to access memory outside buffer bounds"

/-- Bounds-checked big-endian unsigned read of `count` bytes. -/
def readNBE (buf : List Nat) (off count : Nat) : Except String Nat :=
  (readBytes buf off count).map beNat

/-- Sign interpretation of a `count`-byte big-endian unsigned value, the
two's-complement convention of the signed `read*BE` readers. -/
def signDecode (count u : Nat) : Int :=
  if u < 2 ^ (8 * count - 1) then (u : Int) else (u : Int) - 2 ^ (8 * count)

/-- Two's-complement reading of `count` bytes, used for `readInt8`,
`readInt16BE`, `readInt32BE` and `readBigInt64BE`. -/
def readIntBE (buf : List Nat) (off count : Nat) : Except String Int :=
  (readNBE buf off count).map (signDecode count)

/-- Floor base-2 logarithm by fuelled halving; 64 fuel covers every value a
signed 64-bit read can produce. -/
def log2Fuel : Nat → Nat → Nat
  | 0, _ => 0
  | fuel + 1, n => if 2 ≤ n then log2Fuel fuel (n / 2) + 1 else 0

/-- JavaScript `Number(bigInt)` on the int64 domain: an integer is exact up
to 2^53 in magnitude and otherwise rounded to the nearest IEEE-754 double,
ties to even (`e` is the number of bits beyond the 53-bit significand; no
overflow can occur this far below 2^971). -/
def numberOfBigInt (n : Int) : Int :=
  let a := n.natAbs
  if a ≤ 2 ^ 53 then n
  else
    let e := log2Fuel 64 a - 52
    let q := a / 2 ^ e
    let r := a % 2 ^ e
    let q1 := if 2 ^ (e - 1) < r ∨ (r = 2 ^ (e - 1) ∧ q % 2 = 1) then q + 1 else q
    if n < 0 then -(q1 * 2 ^ e : Nat) else (q1 * 2 ^ e : Nat)

/-- Translated from `BinaryPlistParser._parseIntegerValue` in
`src/lib/plist/binary-plist-parser.ts`: 1, 2 and 4 byte integers are read
signed; 8-byte integers are read as `BigInt` and converted with `Number`
(warning, but keeping the converted value, when that loses precision); any
other byte count leaves the initial `intValue = 0`. -/
def parseIntegerValue (buf : List Nat) (startOffset intByteCount : Nat) :
    Except String Int :=
  if intByteCount = 1 then readIntBE buf startOffset 1
  else if intByteCount = 2 then readIntBE buf startOffset 2
  else if intByteCount = 4 then readIntBE buf startOffset 4
  else if intByteCount = 8 then
    (readIntBE buf startOffset 8).map numberOfBigInt
  else Except.ok 0

/-- Translated from `_parseRealValue`: 4 or 8 bytes are read as a float
(carried as raw bytes in the model); any other count returns the number 0. -/
def parseRealValue (buf : List Nat) (startOffset floatByteCount : Nat) :
    Except String PValue :=
  if floatByteCount = 4 then (readBytes buf startOffset 4).map PValue.real
  else if floatByteCount = 8 then (readBytes buf startOffset 8).map PValue.real
  else Except.ok (PValue.int 0)

/-- Translated from `_parseNullType`. -/
def parseNullType (objInfo : Nat) : PValue :=
  if objInfo = 0x00 then PValue.null
  else if objInfo = 0x08 then PValue.bool false
  else if objInfo = 0x09 then PValue.bool true
  else if objInfo = 0x0F then PValue.null
  else PValue.null

/-- Translated from `_parseAsciiString`: `slice(...).toString("ascii")`
clamps the slice and unsets the high bit of every byte when decoding. -/
def parseAsciiString (buf : List Nat) (startOffset objLength : Nat) : PValue :=
  PValue.string (((buf.drop startOffset).take objLength).map (fun b => b % 128))

/-- Translated from `_parseUnicodeString`: `objLength` UTF-16 code units are
read big-endian (`readUInt16BE`, bounds-checked), rewritten big-endian into a
scratch buffer, and that buffer is decoded with `toString("utf16le")` — so
every unit comes out byte-swapped. -/
def parseUnicodeString (buf : List Nat) (startOffset objLength : Nat) :
    Except String PValue :=
  ((List.range objLength).mapM
      (fun j => readNBE buf (startOffset + 2 * j) 2)).map
    (fun units => PValue.string (units.map (fun u => u % 256 * 256 + u / 256)))

/-- An object-table slot during parsing: a finished value, or an array or
dictionary awaiting reference resolution (`TempObject`). -/
inductive PTableItem where
  | val (v : PValue)
  | tempArr (objLength startOffset : Nat)
  | tempDict (objLength startOffset : Nat)

/-- JavaScript `typeof` for a parsed plist value, as reported in the
non-string-key error message. -/
def typeofString : PValue → String
  | PValue.bool _ => "boolean"
  | PValue.int _ => "number"
  | PValue.real _ => "number"
  | PValue.string _ => "string"
  | _ => "object"

/-- Hexadecimal rendering used by `objType.toString(16)`. -/
def hexString (n : Nat) : String :=
  String.mk (Nat.toDigits 16 n)

/-- Translated from `_parseObjectByType` in
`src/lib/plist/binary-plist-parser.ts` (the `SET` marker and any other
unknown type fall to the `Unsupported` error; a UID is returned as an
unsigned number). -/
def parseObjectByType (buf : List Nat) (objType objInfo startOffset objLength : Nat) :
    Except String PTableItem :=
  if objType = 0x00 then Except.ok (PTableItem.val (parseNullType objInfo))
  else if objType = 0x10 then
    (parseIntegerValue buf startOffset (2 ^ objInfo)).map
      (fun n => PTableItem.val (PValue.int n))
  else if objType = 0x20 then
    (parseRealValue buf startOffset (2 ^ objInfo)).map PTableItem.val
  else if objType = 0x30 then
    (readBytes buf startOffset 8).map (fun bs => PTableItem.val (PValue.date bs))
  else if objType = 0x40 then
    Except.ok (PTableItem.val (PValue.data ((buf.drop startOffset).take objLength)))
  else if objType = 0x50 then
    Except.ok (PTableItem.val (parseAsciiString buf startOffset objLength))
  else if objType = 0x60 then
    (parseUnicodeString buf startOffset objLength).map PTableItem.val
  else if objType = 0x80 then
    (readNBE buf startOffset (objInfo + 1)).map
      (fun u => PTableItem.val (PValue.int (Int.ofNat u)))
  else if objType = 0xA0 then Except.ok (PTableItem.tempArr objLength startOffset)
  else if objType = 0xD0 then Except.ok (PTableItem.tempDict objLength startOffset)
  else Except.error ("Unsupported binary plist object type: " ++ hexString objType)

/-- One iteration of the `_parseObjects` loop: read the object's offset from
the offset table, its marker byte, the extended length when `objInfo = 0xF`
(which must be introduced by an integer marker), and parse the object. -/
def parseObjectAt (buf : List Nat) (offsetSize offsetTableOffset : Nat)
    (i : Nat) : Except String PTableItem := do
  let objOffset ← readNBE buf (offsetTableOffset + i * offsetSize) offsetSize
  let b ← readUInt8 buf objOffset
  let objType := b &&& 0xF0
  let objInfo := b &&& 0x0F
  if objInfo = 0x0F then do
    let ib ← readUInt8 buf (objOffset + 1)
    if ib &&& 0xF0 ≠ 0x10 then
      Except.error ("Expected integer type for length at offset " ++
        toString (objOffset + 1))
    else do
      let intByteCount := 2 ^ (ib &&& 0x0F)
      let objLength ← readNBE buf (objOffset + 2) intByteCount
      parseObjectByType buf objType objInfo (objOffset + 2 + intByteCount) objLength
  else
    parseObjectByType buf objType objInfo (objOffset + 1) objInfo

/-- Reference resolution for one temporary array
(`_resolveArrayReferences`): children that are still unresolved
`TempObject`s are silently skipped; a reference past the table reads
`undefined` in JS, modelled as `null` (unreachable on creator output). -/
def resolveArr (buf : List Nat) (objectRefSize : Nat)
    (table : List PTableItem) (objLength startOffset : Nat) :
    Except String (List PValue) :=
  (List.range objLength).foldlM
    (fun (acc : List PValue) j => do
      let refIdx ← readNBE buf (startOffset + j * objectRefSize) objectRefSize
      match table.get? refIdx with
      | some (PTableItem.val v) => pure (acc ++ [v])
      | some _ => pure acc
      | none => pure (acc ++ [PValue.null]))
    []

/-- Reference resolution for one temporary dictionary
(`_resolveDictReferences`): key reference `j` and value reference
`keyCount + j` are read, a non-string key raises, a still-temporary value is
skipped, and the assignment `dict[key] = value` overwrites duplicates. -/
def resolveDict (buf : List Nat) (objectRefSize : Nat)
    (table : List PTableItem) (keyCount startOffset : Nat) :
    Except String (List (List Nat × PValue)) :=
  (List.range keyCount).foldlM
    (fun (acc : List (List Nat × PValue)) j => do
      let keyRef ← readNBE buf (startOffset + j * objectRefSize) objectRefSize
      let valueRef ←
        readNBE buf (startOffset + (keyCount + j) * objectRefSize) objectRefSize
      match table.get? keyRef with
      | some (PTableItem.val (PValue.string s)) =>
        match table.get? valueRef with
        | some (PTableItem.val v) => pure (TunnelReg.assocSet acc s v)
        | some _ => pure acc
        | none => pure (TunnelReg.assocSet acc s PValue.null)
      | some (PTableItem.val v) =>
        Except.error ("Dictionary key must be a string, got " ++ typeofString v)
      | some _ => Except.error "Dictionary key must be a string, got object"
      | none => Except.error "Dictionary key must be a string, got undefined")
    []

/-- The `_resolveReferences` pass: slots are rewritten in index order, so a
container's children with larger indices are still unresolved when the
container is processed. -/
def resolveReferences (buf : List Nat) (objectRefSize numObjects : Nat)
    (table0 : List PTableItem) : Except String (List PTableItem) :=
  (List.range numObjects).foldlM
    (fun (table : List PTableItem) i =>
      match table.get? i with
      | some (PTableItem.tempArr objLength startOffset) => do
        let items ← resolveArr buf objectRefSize table objLength startOffset
        pure (table.set i (PTableItem.val (PValue.array items)))
      | some (PTableItem.tempDict keyCount startOffset) => do
        let entries ← resolveDict buf objectRefSize table keyCount startOffset
        pure (table.set i (PTableItem.val (PValue.dict entries)))
      | _ => pure table)
    table0

/-- The guard of `_handleTopObject`'s special case: slot 0 must be truthy, of
JS `typeof` "object", not temporary, and with no own keys.  That holds for an
empty dictionary, an empty array, an empty `Buffer` and a `Date` (all of
whose `Object.keys` are empty). -/
def emptyObjectLike : PValue → Bool
  | PValue.dict [] => true
  | PValue.array [] => true
  | PValue.data [] => true
  | PValue.date _ => true
  | _ => false

/-- Translated from `_convertArrayToDict`: table slots at odd index `i` with
a string value and an existing slot `i + 1` become dictionary entries. -/
def convertArrayToDict (table : List PTableItem) : PValue :=
  PValue.dict
    (((List.range table.length).filter (fun i => i % 2 = 1)).foldl
      (fun acc i =>
        match table.get? i with
        | some (PTableItem.val (PValue.string s)) =>
          if i + 1 < table.length then
            match table.get? (i + 1) with
            | some (PTableItem.val v) => TunnelReg.assocSet acc s v
            | _ => acc
          else acc
        | _ => acc)
      [])

/-- Translated from `_handleTopObject`; a temporary top object (unreachable
after resolution) yields its in-progress value, an out-of-range top index
yields JS `undefined`, modelled as `null`. -/
def handleTopObject (table : List PTableItem) (topObject : Nat) : PValue :=
  if (decide (topObject = 0) &&
      (match table.get? 0 with
        | some (PTableItem.val v) => emptyObjectLike v
        | _ => false) && decide (1 < table.length)) = true then
    convertArrayToDict table
  else
    match table.get? topObject with
    | some (PTableItem.val v) => v
    | some (PTableItem.tempArr _ _) => PValue.array []
    | some (PTableItem.tempDict _ _) => PValue.dict []
    | none => PValue.null

/-- Translated from `parseBinaryPlist` /
`BinaryPlistParser.parse` in `src/lib/plist/binary-plist-parser.ts`: header
validation, trailer extraction (offset size, object-reference size, object
count, top object index and offset-table offset), the object parsing loop,
reference resolution and top-object handling. -/
def parseBinaryPlist (buf : List Nat) : Except String PValue :=
  if ¬ (8 ≤ buf.length ∧ buf.take 8 = magic) then
    Except.error "Not a binary plist. Expected bplist00 magic."
  else if buf.length < 32 then
    Except.error "Binary plist is too small to contain a trailer."
  else
    let trailer := buf.drop (buf.length - 32)
    let offsetSize := trailer.getD 6 0
    let objectRefSize := trailer.getD 7 0
    let numObjects := beNat ((trailer.drop 8).take 8)
    let topObject := beNat ((trailer.drop 16).take 8)
    let offsetTableOffset := beNat ((trailer.drop 24).take 8)
    ((List.range numObjects).foldlM
        (fun (table : List PTableItem) i =>
          (parseObjectAt buf offsetSize offsetTableOffset i).map
            (fun item => table ++ [item]))
        []).bind
      (fun table0 =>
        (resolveReferences buf objectRefSize numObjects table0).map
          (fun table => handleTopObject table topObject))

/-- Translated from `isBinaryPlist` in `binary-plist-parser.ts`. -/
def isBinaryPlist (buf : List Nat) : Bool :=
  8 ≤ buf.length && buf.take 8 == magic

/-- Translated from the unified `parsePlist` in
`src/lib/plist/unified-plist-parser.ts`.  `xmlParse` stands for the DOM-based
XML parser (`plist-parser.ts`) composed with the `buffer.toString("utf8")`
decoding, neither of which is modelled; the dispatch and the error rewrapping
`throw new Error("Failed to parse plist: " + message)` are. -/
def parsePlist (xmlParse : List Nat → Except String PValue) (data : List Nat) :
    Except String PValue :=
  match (if isBinaryPlist data then parseBinaryPlist data else xmlParse data) with
  | Except.ok v => Except.ok v
  | Except.error e => Except.error ("Failed to parse plist: " ++ e)

end BPlist

section Helpers

/-- Arithmetic form of `byteSwap16` on the 16-bit domain. -/
theorem byteSwap16_arith (w : Nat) (h : w ≤ 0xFFFF) :
    Usbmux.byteSwap16 w = w % 256 * 256 + w / 256 := by
  have hd : w / 2 ^ 8 < 2 ^ 8 := by norm_num; omega
  unfold Usbmux.byteSwap16
  simp only [(show (0xFF : Nat) = 2 ^ 8 - 1 by norm_num),
    Nat.and_pow_two_sub_one_eq_mod, Nat.shiftRight_eq_div_pow, Nat.shiftLeft_eq]
  rw [Nat.mod_eq_of_lt hd, Nat.mul_comm (w % 2 ^ 8) (2 ^ 8)]
  rw [← Nat.mul_add_lt_is_or hd (w % 2 ^ 8)]
  norm_num

end Helpers

/-- Claim C10: `byteSwap16` is an involution on 16-bit values and swaps the
two bytes: for `0 ≤ v ≤ 0xFFFF`, `byteSwap16 (byteSwap16 v) = v`, and
`byteSwap16 v = ((v & 0xFF) << 8) | ((v >> 8) & 0xFF)`. -/
theorem byteSwap16_involution (v : Nat) (h : v ≤ 0xFFFF) :
    Usbmux.byteSwap16 (Usbmux.byteSwap16 v) = v ∧
      Usbmux.byteSwap16 v = ((v &&& 0xFF) <<< 8) ||| ((v >>> 8) &&& 0xFF) := by
  constructor
  · have hs : Usbmux.byteSwap16 v = v % 256 * 256 + v / 256 := byteSwap16_arith v h
    have hb : Usbmux.byteSwap16 v ≤ 0xFFFF := by rw [hs]; omega
    rw [hs, byteSwap16_arith _ (hs ▸ hb)]
    omega
  · rfl

/-- Witness for C10 at `v = 0xBEEF`. -/
theorem byteSwap16_involution_witness :
    Usbmux.byteSwap16 (Usbmux.byteSwap16 0xBEEF) = 0xBEEF :=
  (byteSwap16_involution 0xBEEF (by norm_num)).1

/-- Claim C5 (amended): a receive that finds no message in the queue by the
deadline fails with the error text `Timed out waiting for plist response
after Nms` — the number is directly followed by `ms`, with no space — the
queue is left untouched, and a later receive that finds a message `m`
succeeds with `m`. -/
theorem receivePlist_timeout_behavior (N M : Nat) (m : BPlist.PValue) :
    (PlistComm.receivePlist ([] : List BPlist.PValue) N).1 =
        Except.error
          ("Timed out waiting for plist response after " ++ toString N ++ "ms") ∧
      (PlistComm.receivePlist ([] : List BPlist.PValue) N).2 = [] ∧
      (PlistComm.receivePlist
          ((PlistComm.receivePlist ([] : List BPlist.PValue) N).2 ++ [m]) M).1 =
        Except.ok m := by
  exact ⟨rfl, rfl, rfl⟩

/-- Counterexample for C5 as stated: with a 5000 ms timeout the produced
message is not `Timed out waiting for plist response after 5000 ms` (the
source template has no space before `ms`). -/
theorem receivePlist_timeout_message_cex :
    (PlistComm.receivePlist ([] : List BPlist.PValue) 5000).1 ≠
      Except.error "Timed out waiting for plist response after 5000 ms" := by
  intro hc
  have h : (PlistComm.receivePlist ([] : List BPlist.PValue) 5000).1 =
      Except.error "Timed out waiting for plist response after 5000ms" := by
    rfl
  rw [h] at hc
  have := Except.error.inj hc
  simp at this

section AssocHelpers

/-- Unfolding of `assocSet` on a matching head key. -/
theorem assocSet_cons_pos {κ α : Type} [BEq κ] (k0 k : κ) (v0 v : α)
    (rest : List (κ × α)) (hk : (k0 == k) = true) :
    TunnelReg.assocSet ((k0, v0) :: rest) k v = (k, v) :: rest := by
  simp [TunnelReg.assocSet, hk]

/-- Unfolding of `assocSet` on a non-matching head key. -/
theorem assocSet_cons_neg {κ α : Type} [BEq κ] (k0 k : κ) (v0 v : α)
    (rest : List (κ × α)) (hk : (k0 == k) = false) :
    TunnelReg.assocSet ((k0, v0) :: rest) k v = (k0, v0) :: TunnelReg.assocSet rest k v := by
  simp [TunnelReg.assocSet, hk]

/-- Reading back the key just written by `assocSet`. -/
theorem assocGet_assocSet {κ α : Type} [BEq κ] [LawfulBEq κ]
    (m : List (κ × α)) (k : κ) (v : α) :
    TunnelReg.assocGet (TunnelReg.assocSet m k v) k = some v := by
  induction m with
  | nil => simp [TunnelReg.assocGet, TunnelReg.assocSet]
  | cons p rest ih =>
    obtain ⟨k0, v0⟩ := p
    by_cases hk : (k0 == k) = true
    · rw [assocSet_cons_pos k0 k v0 v rest hk]
      simp [TunnelReg.assocGet]
    · rw [assocSet_cons_neg k0 k v0 v rest (by simpa using hk)]
      unfold TunnelReg.assocGet at ih ⊢
      rw [List.find?_cons_of_neg _ (by simpa using hk)]
      exact ih

/-- A key of `assocSet m k v` is a key of `m` or is `k`. -/
theorem keys_assocSet_cases {κ α : Type} [BEq κ]
    (m : List (κ × α)) (k : κ) (v : α) (x : κ)
    (hx : x ∈ (TunnelReg.assocSet m k v).map Prod.fst) :
    x ∈ m.map Prod.fst ∨ x = k := by
  induction m with
  | nil =>
    simp [TunnelReg.assocSet] at hx
    right; exact hx
  | cons p rest ih =>
    obtain ⟨k0, v0⟩ := p
    by_cases hk : (k0 == k) = true
    · rw [assocSet_cons_pos k0 k v0 v rest hk] at hx
      rw [List.map_cons, List.mem_cons] at hx
      rcases hx with h | h
      · right; exact h
      · left; rw [List.map_cons, List.mem_cons]; right; exact h
    · rw [assocSet_cons_neg k0 k v0 v rest (by simpa using hk)] at hx
      rw [List.map_cons, List.mem_cons] at hx
      rcases hx with h | h
      · left; rw [List.map_cons, List.mem_cons]; left; exact h
      · rcases ih h with h1 | h1
        · left; rw [List.map_cons, List.mem_cons]; right; exact h1
        · right; exact h1

/-- `assocSet` preserves distinctness of keys. -/
theorem keys_nodup_assocSet {κ α : Type} [BEq κ] [LawfulBEq κ]
    (m : List (κ × α)) (k : κ) (v : α)
    (h : (m.map Prod.fst).Nodup) :
    ((TunnelReg.assocSet m k v).map Prod.fst).Nodup := by
  induction m with
  | nil => simp [TunnelReg.assocSet]
  | cons p rest ih =>
    obtain ⟨k0, v0⟩ := p
    rw [List.map_cons, List.nodup_cons] at h
    by_cases hk : (k0 == k) = true
    · have hk0 : k0 = k := by simpa using hk
      rw [assocSet_cons_pos k0 k v0 v rest hk, List.map_cons, List.nodup_cons]
      exact ⟨hk0 ▸ h.1, h.2⟩
    · rw [assocSet_cons_neg k0 k v0 v rest (by simpa using hk), List.map_cons,
        List.nodup_cons]
      refine ⟨fun hx => ?_, ih h.2⟩
      rcases keys_assocSet_cases rest k v k0 hx with h1 | h1
      · exact h.1 h1
      · rw [h1] at hk
        simp at hk

end AssocHelpers

/-- Claim C6: a `PUT /remotexpc/tunnels/:udid` whose body udid differs from
the path udid is answered 400 with the registry unchanged; a missing or
malformed body is answered 400 with the registry unchanged; a matching body
is upserted and answered 200 with `success` and the stored entry, whose
`lastUpdated` is refreshed to the request time. -/
theorem updateTunnel_put_semantics (reg : TunnelReg.TunnelRegistry)
    (pathUdid : String) (body : TunnelReg.TunnelRegistryEntry) (now : Nat)
    (nowIso : String) :
    TunnelReg.updateTunnel reg pathUdid none now nowIso =
        ({ status := 400, tunnel := none, error := some "Invalid tunnel data" },
          reg) ∧
      (body.udid ≠ pathUdid →
        TunnelReg.updateTunnel reg pathUdid (some body) now nowIso =
          ({ status := 400, tunnel := none,
             error := some "UDID mismatch between path and body" }, reg)) ∧
      (body.udid = pathUdid →
        (TunnelReg.updateTunnel reg pathUdid (some body) now nowIso).1.status = 200 ∧
          (TunnelReg.updateTunnel reg pathUdid (some body) now nowIso).1.tunnel =
            some { body with lastUpdated := now } ∧
          TunnelReg.assocGet
              (TunnelReg.updateTunnel reg pathUdid (some body) now nowIso).2.tunnels
              pathUdid =
            some { body with lastUpdated := now }) := by
  refine ⟨rfl, fun hne => ?_, fun heq => ?_⟩
  · simp [TunnelReg.updateTunnel, hne]
  · have hcond : ¬ (body.udid ≠ pathUdid) := fun hne => hne heq
    simp only [TunnelReg.updateTunnel, if_neg hcond]
    exact ⟨trivial, trivial, assocGet_assocSet reg.tunnels pathUdid _⟩

/-- Witness for C6: a fresh registry, matching udids. -/
theorem updateTunnel_put_semantics_witness :
    (TunnelReg.updateTunnel
        { tunnels := [],
          metadata := { lastUpdated := "", totalTunnels := 0, activeTunnels := 0 } }
        "udid-1"
        (some { udid := "udid-1", deviceId := 3, address := "fd01::1",
                rsdPort := 50000, packetStreamPort := none,
                connectionType := "usbmux", productId := 4776, createdAt := 11,
                lastUpdated := 11 })
        42 "now").1.status = 200 ∧
      TunnelReg.assocGet
          (TunnelReg.updateTunnel
            { tunnels := [],
              metadata := { lastUpdated := "", totalTunnels := 0, activeTunnels := 0 } }
            "udid-1"
            (some { udid := "udid-1", deviceId := 3, address := "fd01::1",
                    rsdPort := 50000, packetStreamPort := none,
                    connectionType := "usbmux", productId := 4776, createdAt := 11,
                    lastUpdated := 11 })
            42 "now").2.tunnels "udid-1" =
        some { udid := "udid-1", deviceId := 3, address := "fd01::1",
               rsdPort := 50000, packetStreamPort := none,
               connectionType := "usbmux", productId := 4776, createdAt := 11,
               lastUpdated := 42 } := by
  have h := (updateTunnel_put_semantics
    { tunnels := [],
      metadata := { lastUpdated := "", totalTunnels := 0, activeTunnels := 0 } }
    "udid-1"
    { udid := "udid-1", deviceId := 3, address := "fd01::1", rsdPort := 50000,
      packetStreamPort := none, connectionType := "usbmux", productId := 4776,
      createdAt := 11, lastUpdated := 11 }
    42 "now").2.2 rfl
  exact ⟨h.1, h.2.2⟩

/-- Claim C7: after a successful PUT upsert on a registry whose udids are
distinct, `metadata.totalTunnels` equals the number of entries of the tunnels
map and the map still holds exactly one entry per udid. -/
theorem registry_invariant_after_put (reg : TunnelReg.TunnelRegistry)
    (pathUdid : String) (body : TunnelReg.TunnelRegistryEntry) (now : Nat)
    (nowIso : String)
    (hnodup : (reg.tunnels.map Prod.fst).Nodup)
    (hok : (TunnelReg.updateTunnel reg pathUdid (some body) now nowIso).1.status = 200) :
    (TunnelReg.updateTunnel reg pathUdid (some body) now nowIso).2.metadata.totalTunnels =
        (TunnelReg.updateTunnel reg pathUdid (some body) now nowIso).2.tunnels.length ∧
      (((TunnelReg.updateTunnel reg pathUdid (some body) now nowIso).2.tunnels.map
          Prod.fst)).Nodup := by
  by_cases heq : body.udid = pathUdid
  · simp only [TunnelReg.updateTunnel, heq, ne_eq, not_true_eq_false, if_false,
      ite_false]
    exact ⟨rfl, keys_nodup_assocSet reg.tunnels pathUdid _ hnodup⟩
  · exfalso
    simp [TunnelReg.updateTunnel, heq] at hok

/-- Witness for C7: the same concrete upsert as the C6 witness, starting from
a registry with one other entry. -/
theorem registry_invariant_after_put_witness :
    (TunnelReg.updateTunnel
        { tunnels := [("udid-0",
            { udid := "udid-0", deviceId := 1, address := "fd00::1",
              rsdPort := 49000, packetStreamPort := some 49001,
              connectionType := "usbmux", productId := 4776, createdAt := 5,
              lastUpdated := 5 })],
          metadata := { lastUpdated := "", totalTunnels := 1, activeTunnels := 1 } }
        "udid-1"
        (some { udid := "udid-1", deviceId := 3, address := "fd01::1",
                rsdPort := 50000, packetStreamPort := none,
                connectionType := "usbmux", productId := 4776, createdAt := 11,
                lastUpdated := 11 })
        42 "now").2.metadata.totalTunnels =
      (TunnelReg.updateTunnel
        { tunnels := [("udid-0",
            { udid := "udid-0", deviceId := 1, address := "fd00::1",
              rsdPort := 49000, packetStreamPort := some 49001,
              connectionType := "usbmux", productId := 4776, createdAt := 5,
              lastUpdated := 5 })],
          metadata := { lastUpdated := "", totalTunnels := 1, activeTunnels := 1 } }
        "udid-1"
        (some { udid := "udid-1", deviceId := 3, address := "fd01::1",
                rsdPort := 50000, packetStreamPort := none,
                connectionType := "usbmux", productId := 4776, createdAt := 11,
                lastUpdated := 11 })
        42 "now").2.tunnels.length := by
  exact (registry_invariant_after_put
    { tunnels := [("udid-0",
        { udid := "udid-0", deviceId := 1, address := "fd00::1",
          rsdPort := 49000, packetStreamPort := some 49001,
          connectionType := "usbmux", productId := 4776, createdAt := 5,
          lastUpdated := 5 })],
      metadata := { lastUpdated := "", totalTunnels := 1, activeTunnels := 1 } }
    "udid-1"
    { udid := "udid-1", deviceId := 3, address := "fd01::1", rsdPort := 50000,
      packetStreamPort := none, connectionType := "usbmux", productId := 4776,
      createdAt := 11, lastUpdated := 11 }
    42 "now" (by simp) rfl).1

section RsdHelpers

/-- `findPortAfter` ignores service tokens. -/
theorem findPortAfter_append_service (l1 : List RemoteXpc.RsdItem) (x : String)
    (l2 : List RemoteXpc.RsdItem) :
    RemoteXpc.findPortAfter (l1 ++ RemoteXpc.RsdItem.service x :: l2) =
      RemoteXpc.findPortAfter (l1 ++ l2) := by
  induction l1 with
  | nil => simp [RemoteXpc.findPortAfter]
  | cons i rest ih => cases i <;> simp [RemoteXpc.findPortAfter, ih]

/-- Dropping the first of two consecutive service tokens does not change the
extraction result. -/
theorem extractLoop_drop_first_of_pair (pre post : List RemoteXpc.RsdItem)
    (x y : String) :
    RemoteXpc.extractLoop
        (pre ++ RemoteXpc.RsdItem.service x :: RemoteXpc.RsdItem.service y :: post) =
      RemoteXpc.extractLoop (pre ++ RemoteXpc.RsdItem.service y :: post) := by
  induction pre with
  | nil => simp [RemoteXpc.extractLoop]
  | cons i rest ih =>
    cases i with
    | port p => simpa [RemoteXpc.extractLoop] using ih
    | service n =>
      cases rest with
      | nil => simp [RemoteXpc.extractLoop]
      | cons j rest2 =>
        cases j with
        | service m => simpa [RemoteXpc.extractLoop] using ih
        | port p =>
          simp only [List.cons_append, RemoteXpc.extractLoop,
            RemoteXpc.findPortAfter, Option.getD_some, List.append_eq] at ih ⊢
          rw [ih]

/-- Every extracted service name comes from a service token of the input. -/
theorem mem_extractLoop_service (items : List RemoteXpc.RsdItem)
    (s : RemoteXpc.Service) (hs : s ∈ RemoteXpc.extractLoop items) :
    RemoteXpc.RsdItem.service s.serviceName ∈ items := by
  induction items using RemoteXpc.extractLoop.induct with
  | case1 => simp [RemoteXpc.extractLoop] at hs
  | case2 p rest ih =>
    simp only [RemoteXpc.extractLoop] at hs
    exact List.mem_cons_of_mem _ (ih hs)
  | case3 a b rest ih =>
    simp only [RemoteXpc.extractLoop] at hs
    exact List.mem_cons_of_mem _ (ih hs)
  | case4 name p rest ih =>
    simp only [RemoteXpc.extractLoop] at hs
    rcases List.mem_cons.1 hs with h | h
    · subst h
      exact List.mem_cons_self _ _
    · exact List.mem_cons_of_mem _ (ih h)
  | case5 name =>
    simp only [RemoteXpc.extractLoop, List.mem_singleton] at hs
    subst hs
    exact List.mem_cons_self _ _

end RsdHelpers

/-- Claim C4: on a catalog whose tokens are service names `a, b, c`
interleaved with ports `p1, p2, p3`, the services come back in order and
looking up `b` returns port `p2`; two consecutive service names make the
first one disappear: its removal does not change the result, and its name is
absent whenever it occurs nowhere else. -/
theorem extractServices_interleaved_and_pair_drop :
    (∀ a p1 b p2 c p3 : String,
      RemoteXpc.extractServices
          [RemoteXpc.RsdItem.service a, RemoteXpc.RsdItem.port p1,
           RemoteXpc.RsdItem.service b, RemoteXpc.RsdItem.port p2,
           RemoteXpc.RsdItem.service c, RemoteXpc.RsdItem.port p3] =
        [{ serviceName := a, port := p1 }, { serviceName := b, port := p2 },
         { serviceName := c, port := p3 }] ∧
      (a ≠ b →
        RemoteXpc.findService
            (RemoteXpc.extractServices
              [RemoteXpc.RsdItem.service a, RemoteXpc.RsdItem.port p1,
               RemoteXpc.RsdItem.service b, RemoteXpc.RsdItem.port p2,
               RemoteXpc.RsdItem.service c, RemoteXpc.RsdItem.port p3]) b =
          some { serviceName := b, port := p2 })) ∧
    (∀ (pre post : List RemoteXpc.RsdItem) (x y : String),
      RemoteXpc.extractServices
          (pre ++ RemoteXpc.RsdItem.service x :: RemoteXpc.RsdItem.service y :: post) =
        RemoteXpc.extractServices (pre ++ RemoteXpc.RsdItem.service y :: post)) ∧
    (∀ (pre post : List RemoteXpc.RsdItem) (x y : String),
      RemoteXpc.RsdItem.service x ∉ pre → RemoteXpc.RsdItem.service x ∉ post →
      x ≠ y →
      ∀ s ∈ RemoteXpc.extractServices
          (pre ++ RemoteXpc.RsdItem.service x :: RemoteXpc.RsdItem.service y :: post),
        s.serviceName ≠ x) := by
  have horder : ∀ a p1 b p2 c p3 : String,
      RemoteXpc.extractServices
          [RemoteXpc.RsdItem.service a, RemoteXpc.RsdItem.port p1,
           RemoteXpc.RsdItem.service b, RemoteXpc.RsdItem.port p2,
           RemoteXpc.RsdItem.service c, RemoteXpc.RsdItem.port p3] =
        [{ serviceName := a, port := p1 }, { serviceName := b, port := p2 },
         { serviceName := c, port := p3 }] := by
    intro a p1 b p2 c p3
    simp [RemoteXpc.extractServices, RemoteXpc.extractLoop, RemoteXpc.findPortAfter]
  refine ⟨fun a p1 b p2 c p3 => ⟨horder a p1 b p2 c p3, fun hab => ?_⟩,
    fun pre post x y => extractLoop_drop_first_of_pair pre post x y,
    fun pre post x y hx1 hx2 hxy s hs hc => ?_⟩
  · rw [horder a p1 b p2 c p3]
    unfold RemoteXpc.findService
    rw [List.find?_cons_of_neg _ (by simpa using hab),
      List.find?_cons_of_pos _ (by simp)]
  · rw [RemoteXpc.extractServices,
      extractLoop_drop_first_of_pair pre post x y] at hs
    have hmem := mem_extractLoop_service _ s hs
    rw [hc] at hmem
    rcases List.mem_append.1 hmem with h | h
    · exact hx1 h
    · rcases List.mem_cons.1 h with h1 | h1
      · exact hxy (RemoteXpc.RsdItem.service.inj h1)
      · exact hx2 h1

/-- Witness for C4 at a concrete catalog. -/
theorem extractServices_interleaved_and_pair_drop_witness :
    RemoteXpc.extractServices
        [RemoteXpc.RsdItem.service "com.apple.A", RemoteXpc.RsdItem.port "1",
         RemoteXpc.RsdItem.service "com.apple.B", RemoteXpc.RsdItem.port "2",
         RemoteXpc.RsdItem.service "com.apple.C", RemoteXpc.RsdItem.port "3"] =
      [{ serviceName := "com.apple.A", port := "1" },
       { serviceName := "com.apple.B", port := "2" },
       { serviceName := "com.apple.C", port := "3" }] ∧
    RemoteXpc.findService
        (RemoteXpc.extractServices
          [RemoteXpc.RsdItem.service "com.apple.A", RemoteXpc.RsdItem.port "1",
           RemoteXpc.RsdItem.service "com.apple.B", RemoteXpc.RsdItem.port "2",
           RemoteXpc.RsdItem.service "com.apple.C", RemoteXpc.RsdItem.port "3"])
        "com.apple.B" =
      some { serviceName := "com.apple.B", port := "2" } ∧
    ({ serviceName := "com.apple.Y", port := "" } : RemoteXpc.Service).serviceName ≠
      "com.apple.X" := by
  refine ⟨(extractServices_interleaved_and_pair_drop.1 "com.apple.A" "1"
      "com.apple.B" "2" "com.apple.C" "3").1,
    (extractServices_interleaved_and_pair_drop.1 "com.apple.A" "1" "com.apple.B"
      "2" "com.apple.C" "3").2 (by decide), ?_⟩
  exact extractServices_interleaved_and_pair_drop.2.2 [] [] "com.apple.X"
    "com.apple.Y" (by simp) (by simp) (by decide)
    { serviceName := "com.apple.Y", port := "" } (by decide)

section SyslogHelpers

/-- A string trims to the empty string exactly when every code unit is
whitespace. -/
theorem jsTrim_eq_nil_iff (s : List Nat) :
    Syslog.jsTrim s = [] ↔ ∀ x ∈ s, Syslog.jsWhitespace x = true := by
  unfold Syslog.jsTrim
  rw [List.reverse_eq_nil_iff]
  constructor
  · intro h x hx
    by_contra hw
    have hne : s.dropWhile Syslog.jsWhitespace ≠ [] := by
      intro hnil
      rw [List.dropWhile_eq_nil_iff] at hnil
      exact hw (hnil x hx)
    have hhead := List.head_dropWhile_not Syslog.jsWhitespace s hne
    rw [List.dropWhile_eq_nil_iff] at h
    have hmem : (s.dropWhile Syslog.jsWhitespace).head hne ∈
        (s.dropWhile Syslog.jsWhitespace).reverse := by
      rw [List.mem_reverse]
      exact List.head_mem hne
    have hws := h _ hmem
    rw [hws] at hhead
    exact Bool.noConfusion hhead
  · intro h
    have hnil : s.dropWhile Syslog.jsWhitespace = [] := by
      rw [List.dropWhile_eq_nil_iff]
      exact fun x hx => h x hx
    rw [hnil]
    simp

/-- Among printable code units, the only JS whitespace is the space. -/
theorem printable_whitespace_iff (c : Nat) (h32 : 32 ≤ c) (h126 : c ≤ 126) :
    Syslog.jsWhitespace c = true ↔ c = 32 := by
  unfold Syslog.jsWhitespace
  simp only [List.mem_cons, List.not_mem_nil, or_false, decide_eq_true_eq]
  omega

end SyslogHelpers

/-- Claim C9 (amended): on the non-plist text path, a packet emits exactly
one `message` event precisely when its payload contains a printable
non-space character (code 0x21–0x7E), and the emitted text is the payload
with every non-printable character stripped.  The mostly-printable ratio
gates logging only, not emission. -/
theorem processAsText_emission (payload : List Nat) :
    Syslog.processAsText payload =
      if payload.any (fun c => 33 ≤ c && c ≤ 126) then
        [Syslog.extractPrintableText payload]
      else [] := by
  have hsame : Syslog.processAsText payload =
      if (Syslog.jsTrim (Syslog.extractPrintableText payload)).isEmpty then []
      else [Syslog.extractPrintableText payload] := by
    unfold Syslog.processAsText
    split <;> rfl
  rw [hsame]
  by_cases hany : payload.any (fun c => 33 ≤ c && c ≤ 126) = true
  · rw [if_pos hany]
    rcases List.any_eq_true.1 hany with ⟨c, hc, hcprop⟩
    have h33 : 33 ≤ c ∧ c ≤ 126 := by simpa using hcprop
    have hcmem : c ∈ Syslog.extractPrintableText payload := by
      rw [Syslog.extractPrintableText, List.mem_filter]
      exact ⟨hc, by simp [Syslog.isPrintableCode]; omega⟩
    have hne : Syslog.jsTrim (Syslog.extractPrintableText payload) ≠ [] := by
      intro hnil
      rw [jsTrim_eq_nil_iff] at hnil
      have := hnil c hcmem
      rw [printable_whitespace_iff c (by omega) (by omega)] at this
      omega
    rw [if_neg (by simpa [List.isEmpty_iff] using hne)]
  · rw [if_neg hany]
    have hall : ∀ x ∈ Syslog.extractPrintableText payload,
        Syslog.jsWhitespace x = true := by
      intro x hx
      rw [Syslog.extractPrintableText, List.mem_filter] at hx
      have hpr : 32 ≤ x ∧ x ≤ 126 := by
        have := hx.2
        simp [Syslog.isPrintableCode] at this
        omega
      have hnot : ¬ (33 ≤ x ∧ x ≤ 126) := by
        intro hcon
        exact hany (List.any_eq_true.2 ⟨x, hx.1, by simp; omega⟩)
      rw [printable_whitespace_iff x hpr.1 hpr.2]
      omega
    rw [if_pos (by simpa [List.isEmpty_iff] using (jsTrim_eq_nil_iff _).2 hall)]

/-- Counterexample for C9 as stated: the payload `[0x41, 0, 0, 0]` is only
25 % printable — not a qualifying packet — yet `processAsText` emits one
`message` event carrying the stripped text `A`. -/
theorem processAsText_nonqualifying_emits_cex :
    Syslog.isMostlyPrintable [65, 0, 0, 0] = false ∧
      Syslog.processAsText [65, 0, 0, 0] = [[65]] := by
  exact ⟨rfl, rfl⟩

/-- Claim C2: the unified parser treats exactly the buffers whose first 8
bytes are `bplist00` as binary plists, and hands every other buffer to the
XML parser (over its UTF-8 decoding); in both cases an inner failure is
rewrapped with the `Failed to parse plist:` prefix. -/
theorem parsePlist_format_detection
    (xmlParse : List Nat → Except String BPlist.PValue) (data : List Nat) :
    (data.take 8 = BPlist.magic →
      BPlist.parsePlist xmlParse data =
        match BPlist.parseBinaryPlist data with
        | Except.ok v => Except.ok v
        | Except.error e => Except.error ("Failed to parse plist: " ++ e)) ∧
    (data.take 8 ≠ BPlist.magic →
      BPlist.parsePlist xmlParse data =
        match xmlParse data with
        | Except.ok v => Except.ok v
        | Except.error e => Except.error ("Failed to parse plist: " ++ e)) := by
  constructor
  · intro h
    have hlen : 8 ≤ data.length := by
      have hl := congrArg List.length h
      rw [List.length_take] at hl
      simp [BPlist.magic] at hl
      omega
    have hbin : BPlist.isBinaryPlist data = true := by
      unfold BPlist.isBinaryPlist
      simp [hlen, h]
    unfold BPlist.parsePlist
    rw [hbin]
    simp
  · intro h
    have hbin : BPlist.isBinaryPlist data = false := by
      unfold BPlist.isBinaryPlist
      simp [h]
    unfold BPlist.parsePlist
    rw [hbin]
    simp

/-- Witness for C2: the bare magic is dispatched to the binary parser (whose
too-small failure is rewrapped), and a non-magic byte goes to the XML
parser. -/
theorem parsePlist_format_detection_witness :
    BPlist.parsePlist (fun _ => Except.ok BPlist.PValue.null) BPlist.magic =
        Except.error
          "Failed to parse plist: Binary plist is too small to contain a trailer." ∧
      BPlist.parsePlist (fun _ => Except.ok BPlist.PValue.null) [60] =
        Except.ok BPlist.PValue.null := by
  constructor
  · exact ((parsePlist_format_detection (fun _ => Except.ok BPlist.PValue.null)
      BPlist.magic).1 rfl).trans rfl
  · exact ((parsePlist_format_detection (fun _ => Except.ok BPlist.PValue.null)
      [60]).2 (by decide)).trans rfl

section Int64Helpers

/-- `natToBEBytes` produces exactly `size` bytes. -/
theorem natToBEBytes_length : ∀ (k n : Nat), (BPlist.natToBEBytes k n).length = k := by
  intro k
  induction k with
  | zero => intro n; rfl
  | succ k ih =>
    intro n
    unfold BPlist.natToBEBytes
    rw [List.length_append, ih]
    simp

/-- Folding one more low byte into a big-endian accumulator. -/
theorem beNat_append (xs : List Nat) (b : Nat) :
    BPlist.beNat (xs ++ [b]) = BPlist.beNat xs * 256 + b := by
  unfold BPlist.beNat
  rw [List.foldl_append]
  rfl

/-- Reading back a big-endian encoding recovers the value modulo `256 ^ k`. -/
theorem beNat_natToBEBytes : ∀ (k n : Nat),
    BPlist.beNat (BPlist.natToBEBytes k n) = n % 256 ^ k := by
  intro k
  induction k with
  | zero =>
    intro n
    simp [BPlist.natToBEBytes, BPlist.beNat, Nat.mod_one]
  | succ k ih =>
    intro n
    unfold BPlist.natToBEBytes
    rw [beNat_append, ih]
    have h256 : (256 : Nat) ^ (k + 1) = 256 * 256 ^ k := by
      rw [pow_succ]; ring
    rw [h256, Nat.mod_mul]
    ring

/-- A signed 64-bit round trip through the two's-complement byte codec. -/
theorem readIntBE_intToBEBytes (v : Int) (h1 : -(2 ^ 63) ≤ v) (h2 : v < 2 ^ 63) :
    BPlist.readIntBE (BPlist.intToBEBytes 8 v) 0 8 = Except.ok v := by
  have hm : (((v.emod 18446744073709551616).toNat : Nat) : Int) =
      v.emod 18446744073709551616 :=
    Int.toNat_of_nonneg (Int.emod_nonneg v (by norm_num))
  have hlow : (0 : Int) ≤ v.emod 18446744073709551616 :=
    Int.emod_nonneg v (by norm_num)
  have hhigh : v.emod 18446744073709551616 < 18446744073709551616 :=
    Int.emod_lt_of_pos v (by norm_num)
  have hpow : (2 : Int) ^ (8 * 8) = 18446744073709551616 := by norm_num
  have hlen : (BPlist.natToBEBytes 8 (v.emod 18446744073709551616).toNat).length = 8 :=
    natToBEBytes_length 8 _
  have hread : BPlist.readNBE (BPlist.intToBEBytes 8 v) 0 8 =
      Except.ok ((v.emod 18446744073709551616).toNat) := by
    unfold BPlist.readNBE BPlist.readBytes BPlist.intToBEBytes
    rw [hpow, if_pos (by rw [hlen])]
    simp only [Except.map, List.drop_zero]
    rw [List.take_of_length_le (le_of_eq hlen), beNat_natToBEBytes]
    rw [Nat.mod_eq_of_lt (by norm_num; omega)]
  unfold BPlist.readIntBE
  rw [hread]
  show Except.ok (BPlist.signDecode 8 ((v.emod 18446744073709551616).toNat)) =
    Except.ok v
  rw [Except.ok.injEq]
  unfold BPlist.signDecode
  rw [(show (2 : Int) ^ (8 * 8) = 18446744073709551616 by norm_num)]
  have hcases : v.emod 18446744073709551616 = v ∨
      v.emod 18446744073709551616 = v + 18446744073709551616 := by
    rcases le_or_lt 0 v with hv | hv
    · left
      exact Int.emod_eq_of_lt hv (by omega)
    · right
      have hshift : (v + 18446744073709551616 * 1).emod 18446744073709551616 =
          v.emod 18446744073709551616 :=
        Int.add_mul_emod_self_left v 18446744073709551616 1
      have hval : (v + 18446744073709551616).emod 18446744073709551616 =
          v + 18446744073709551616 := Int.emod_eq_of_lt (by omega) (by omega)
      rw [mul_one] at hshift
      rw [← hshift, hval]
  split
  · rcases hcases with h | h <;> omega
  · rcases hcases with h | h <;> omega

end Int64Helpers

/-- Claim C8 (amended): `_parseIntegerValue` reads an 8-byte integer as a
signed 64-bit value and converts it with `Number`: values within the 53-bit
safe-integer range come back exactly; larger magnitudes are rounded to the
nearest double — a lossy native number, not an arbitrary-precision integer. -/
theorem parseIntegerValue_int64_exact (v : Int) (h1 : -(2 ^ 63) ≤ v)
    (h2 : v < 2 ^ 63) (h3 : v.natAbs ≤ 2 ^ 53) :
    BPlist.parseIntegerValue (BPlist.intToBEBytes 8 v) 0 8 = Except.ok v := by
  unfold BPlist.parseIntegerValue
  norm_num
  rw [readIntBE_intToBEBytes v h1 h2]
  simp only [Except.map]
  unfold BPlist.numberOfBigInt
  rw [if_pos h3]

/-- Witness for C8 at `v = -5`. -/
theorem parseIntegerValue_int64_exact_witness :
    BPlist.parseIntegerValue (BPlist.intToBEBytes 8 (-5)) 0 8 =
      Except.ok (-5) :=
  parseIntegerValue_int64_exact (-5) (by norm_num) (by norm_num) (by norm_num)

/-- Counterexample for C8 as stated: the stored 8-byte integer `2^62 + 1`
does not fit the safe-integer width, and parsing returns the rounded double
`2^62`, not a numerically equal arbitrary-precision value. -/
theorem parseIntegerValue_precision_loss_cex :
    BPlist.parseIntegerValue (BPlist.natToBEBytes 8 (2 ^ 62 + 1)) 0 8 =
        Except.ok ((2 ^ 62 : Int)) ∧
      ((2 ^ 62 : Int)) ≠ 2 ^ 62 + 1 := by
  constructor
  · rfl
  · norm_num

section SplitterHelpers

/-- An accepted length is plausible and is one of the two endianness reads
of the length field. -/
theorem Splitter.lengthStep_accept_spec (le : Bool) (max : Nat) (buf : List Nat)
    (len : Nat) (h : Splitter.lengthStep le max buf = Splitter.LengthStep.accept len) :
    len ≤ max ∧ (len = Splitter.readUInt32BE buf 0 ∨ len = Splitter.readUInt32LE buf 0) := by
  unfold Splitter.lengthStep at h
  by_cases hmsg : (if le then Splitter.readUInt32LE buf 0 else Splitter.readUInt32BE buf 0) > max
  · rw [if_pos hmsg] at h
    by_cases halt : 0 < (if le then Splitter.readUInt32BE buf 0 else Splitter.readUInt32LE buf 0) ∧
        (if le then Splitter.readUInt32BE buf 0 else Splitter.readUInt32LE buf 0) ≤ max
    · rw [if_pos halt] at h
      injection h with he
      refine ⟨he ▸ halt.2, ?_⟩
      cases le
      · right; rw [← he]; simp
      · left; rw [← he]; simp
    · rw [if_neg halt] at h
      by_cases hxml : Splitter.hasXmlMarker (buf.take 100) = true
      · rw [if_pos hxml] at h
        exact Splitter.LengthStep.noConfusion h
      · rw [if_neg hxml] at h
        exact Splitter.LengthStep.noConfusion h
  · rw [if_neg hmsg] at h
    injection h with he
    refine ⟨by omega, ?_⟩
    cases le
    · left; rw [← he]; simp
    · right; rw [← he]; simp

/-- Reading inside the taken prefix sees the original bytes. -/
theorem Splitter.getD_take (buf : List Nat) (n i : Nat) (h : i < n) :
    (buf.take n).getD i 0 = buf.getD i 0 := by
  rw [List.getD_eq_getD_get? _ 0 i, List.getD_eq_getD_get? _ 0 i,
    List.get?_take h]

/-- The 32-bit reads at offset 0 agree between a buffer and any prefix of
at least 4 bytes. -/
theorem Splitter.readUInt32_take (buf : List Nat) (n : Nat) (h : 4 ≤ n) :
    Splitter.readUInt32BE (buf.take n) 0 = Splitter.readUInt32BE buf 0 ∧
      Splitter.readUInt32LE (buf.take n) 0 = Splitter.readUInt32LE buf 0 := by
  unfold Splitter.readUInt32BE Splitter.readUInt32LE
  rw [Splitter.getD_take buf n 0 (by omega), Splitter.getD_take buf n 1 (by omega),
    Splitter.getD_take buf n 2 (by omega), Splitter.getD_take buf n 3 (by omega)]
  exact ⟨rfl, rfl⟩

/-- Fuel-indexed no-partial-message invariant of the splitter loop. -/
theorem Splitter.processBinaryLoop_messages_complete (le : Bool) (max : Nat) :
    ∀ (fuel : Nat) (buf m : List Nat),
      m ∈ (Splitter.processBinaryLoop le max fuel buf).1 →
      ∃ len, len ≤ max ∧ m.length = 4 + len ∧
        (len = Splitter.readUInt32BE m 0 ∨ len = Splitter.readUInt32LE m 0) := by
  intro fuel
  induction fuel with
  | zero =>
    intro buf m hm
    simp [Splitter.processBinaryLoop] at hm
  | succ fuel ih =>
    intro buf m hm
    unfold Splitter.processBinaryLoop at hm
    split at hm
    · simp at hm
    · split at hm
      · simp at hm
      · exact ih (buf.drop 1) m hm
      · rename_i len hstep
        split at hm
        · simp at hm
        · rename_i hlen
          dsimp only [] at hm
          split at hm
          · simp at hm
          · rcases List.mem_cons.1 hm with hme | hmt
            · subst hme
              have hspec := Splitter.lengthStep_accept_spec le max buf len hstep
              have hlength : (buf.take (4 + len)).length = 4 + len := by
                rw [List.length_take]
                omega
              have hreads := Splitter.readUInt32_take buf (4 + len) (by omega)
              refine ⟨len, hspec.1, hlength, ?_⟩
              rcases hspec.2 with hr | hr
              · left; rw [hreads.1]; exact hr
              · right; rw [hreads.2]; exact hr
            · exact ih (buf.drop (4 + len)) m hmt


/-- One implausible-length iteration of the splitter loop: marker in the
preview window means switch to XML keeping the buffer; no marker means the
whole run equals the run on the buffer minus its first byte. -/
theorem Splitter.processBinaryData_step (le : Bool) (max : Nat) (buf : List Nat)
    (h4 : 4 ≤ buf.length)
    (hlen : max < (if le then Splitter.readUInt32LE buf 0 else Splitter.readUInt32BE buf 0))
    (halt : ¬ (0 < (if le then Splitter.readUInt32BE buf 0 else Splitter.readUInt32LE buf 0) ∧
        (if le then Splitter.readUInt32BE buf 0 else Splitter.readUInt32LE buf 0) ≤ max)) :
    (Splitter.hasXmlMarker (buf.take 100) = true →
      Splitter.processBinaryData le max buf = ([], buf, true)) ∧
    (Splitter.hasXmlMarker (buf.take 100) = false →
      Splitter.processBinaryData le max buf = Splitter.processBinaryData le max (buf.drop 1)) := by
  constructor
  · intro hx
    have hstep : Splitter.lengthStep le max buf = Splitter.LengthStep.toXml := by
      unfold Splitter.lengthStep
      dsimp only
      rw [if_pos hlen, if_neg halt, if_pos hx]
    unfold Splitter.processBinaryData
    simp only [Splitter.processBinaryLoop]
    rw [if_neg (by omega), hstep]
  · intro hx
    have hstep : Splitter.lengthStep le max buf = Splitter.LengthStep.dropOne := by
      unfold Splitter.lengthStep
      dsimp only
      rw [if_pos hlen, if_neg halt, if_neg (by rw [hx]; exact Bool.false_ne_true)]
    have hfuel : (buf.drop 1).length + 1 = buf.length := by
      rw [List.length_drop]
      omega
    unfold Splitter.processBinaryData
    rw [hfuel]
    simp only [Splitter.processBinaryLoop]
    rw [if_neg (by omega), hstep]

/-- Claim C3 (amended): in framed binary mode with a 4-byte length field,
an implausible declared length is re-read in the opposite endianness; if the
alternate is implausible too, the splitter switches to XML mode when the
first `min(100, length)` buffered bytes — the preview window, not the whole
buffer — contain an XML marker, and otherwise discards exactly one byte and
re-synchronizes; and every emitted message is complete: its length is
exactly 4 plus its own accepted (plausible) declared length. -/
theorem Splitter.processBinaryData_resync_and_complete :
    (∀ (le : Bool) (max : Nat) (buf : List Nat),
      4 ≤ buf.length →
      max < (if le then Splitter.readUInt32LE buf 0 else Splitter.readUInt32BE buf 0) →
      ¬ (0 < (if le then Splitter.readUInt32BE buf 0 else Splitter.readUInt32LE buf 0) ∧
          (if le then Splitter.readUInt32BE buf 0 else Splitter.readUInt32LE buf 0) ≤ max) →
      ((Splitter.hasXmlMarker (buf.take 100) = true →
          Splitter.processBinaryData le max buf = ([], buf, true)) ∧
        (Splitter.hasXmlMarker (buf.take 100) = false →
          Splitter.processBinaryData le max buf = Splitter.processBinaryData le max (buf.drop 1)))) ∧
    (∀ (le : Bool) (max : Nat) (buf m : List Nat),
      m ∈ (Splitter.processBinaryData le max buf).1 →
      ∃ len, len ≤ max ∧ m.length = 4 + len ∧
        (len = Splitter.readUInt32BE m 0 ∨ len = Splitter.readUInt32LE m 0)) :=
  ⟨Splitter.processBinaryData_step,
    fun le max buf m hm => Splitter.processBinaryLoop_messages_complete le max (buf.length + 1) buf m hm⟩

/-- Witness for C3: `<?xml` itself-headed garbage switches to XML mode, and
a well-framed 2-byte message is emitted whole. -/
theorem Splitter.processBinaryData_resync_witness :
    Splitter.processBinaryData false 0 Splitter.xmlDeclBytes = ([], Splitter.xmlDeclBytes, true) ∧
      (∃ len, len ≤ 10 ∧
        (List.length [0, 0, 0, 2, 65, 66] = 4 + len) ∧
        (len = Splitter.readUInt32BE [0, 0, 0, 2, 65, 66] 0 ∨
          len = Splitter.readUInt32LE [0, 0, 0, 2, 65, 66] 0)) := by
  constructor
  · exact (Splitter.processBinaryData_resync_and_complete.1 false 0 Splitter.xmlDeclBytes
      (by decide) (by decide) (by decide)).1 (by decide)
  · exact Splitter.processBinaryData_resync_and_complete.2 false 10 [0, 0, 0, 2, 65, 66]
      [0, 0, 0, 2, 65, 66] (by decide)

/-- Counterexample for C3 as stated: both endianness reads of
`previewCexBuf` are implausible under the 10 MB default limit and the
buffered bytes do contain `<?xml`, yet the splitter does not switch to XML
mode with the buffer intact — the marker sits just past the 100-byte preview
window, so bytes are discarded first. -/
theorem Splitter.splitter_preview_window_cex :
    Splitter.hasXmlMarker Splitter.previewCexBuf = true ∧
      10485760 < Splitter.readUInt32BE Splitter.previewCexBuf 0 ∧
      10485760 < Splitter.readUInt32LE Splitter.previewCexBuf 0 ∧
      Splitter.processBinaryData false 10485760 Splitter.previewCexBuf ≠ ([], Splitter.previewCexBuf, true) := by
  refine ⟨by decide, by decide, by decide, ?_⟩
  have h : Splitter.processBinaryData false 10485760 Splitter.previewCexBuf =
      ([], List.replicate 95 255 ++ Splitter.xmlDeclBytes, true) := by rfl
  rw [h]
  intro hc
  have hlen := congrArg (fun t => t.2.1.length) hc
  simp only [Splitter.previewCexBuf, List.length_append, List.length_replicate] at hlen
  omega

end SplitterHelpers

/-- Claim C1 (the code_bug evaluated): the binary round trip fails already at
the integer 42.  `createBinaryPlist` records each object offset relative to
the start of the object-data section while `parseBinaryPlist` (and the bplist
format) treat offsets as absolute file positions, so the parser starts
reading inside the 8-byte `bplist00` header and returns a garbage unicode
string instead of 42. -/
theorem parse_create_roundtrip_fails_at_42 :
    BPlist.parseBinaryPlist (BPlist.createBinaryPlist (BPlist.PValue.int 42)) ≠
      Except.ok (BPlist.PValue.int 42) := by
  have h : BPlist.parseBinaryPlist (BPlist.createBinaryPlist (BPlist.PValue.int 42)) =
      Except.ok (BPlist.PValue.string [0x6C70, 0x7369]) := by rfl
  rw [h]
  intro hc
  exact BPlist.PValue.noConfusion (Except.ok.inj hc)
